import Mathlib

/-!
Verification of the Starlight GPU device/swapchain lifecycle manager
(`src/core/device.cpp`, `src/core/config.{hpp,cpp}`, `src/core/version.hpp`).

The C++ core is shallowly embedded: Vulkan handle creation is modelled by
pure Lean functions that record the data the code computes (queue-family
assignments, requested queue counts, resource counts, the per-frame command
trace).  Machine integers are modelled as `Nat`; the only place wrap-around
can matter (the `std::size_t` device-local memory sum) takes an explicit
`% 2 ^ 64`.  `float` values are never subjected to arithmetic by the code —
they are stored and passed through — so they are modelled as `ℚ`.
Fallible construction steps return `Except String`.
-/

namespace Starlight

/-! ### Queue flags (vk::QueueFlagBits) -/

/-- Bit value of `vk::QueueFlagBits::eGraphics`. -/
def graphicsBit : Nat := 1

/-- Bit value of `vk::QueueFlagBits::eCompute`. -/
def computeBit : Nat := 2

/-- Bit value of `vk::QueueFlagBits::eTransfer`. -/
def transferBit : Nat := 4

/-- One entry of `vk::PhysicalDevice::getQueueFamilyProperties()`:
the capability bitmask and the number of queues the family offers. -/
structure QueueFamilyProperty where
  queueFlags : Nat
  queueCount : Nat
deriving DecidableEq, Repr

/-- Model of `vk::PhysicalDeviceType`, restricted to the cases the selector
distinguishes (`eDiscreteGpu`, `eIntegratedGpu`, everything else). -/
inductive DeviceType where
  | discreteGpu
  | integratedGpu
  | otherGpu
deriving DecidableEq, Repr

/-- One entry of `vk::PhysicalDeviceMemoryProperties::memoryHeaps`
(already truncated to the first `memoryHeapCount` entries, as the code
does with `std::span(...).first(memoryHeapCount)`). -/
structure MemoryHeap where
  flags : Nat
  size : Nat
deriving DecidableEq, Repr

/-- Bit value of `vk::MemoryHeapFlagBits::eDeviceLocal`. -/
def deviceLocalBit : Nat := 1

/-- The data of one enumerated `vk::PhysicalDevice` that
`ChoosePhysicalDevice` inspects.  `presentSupport` records, per queue
family index, the answer of `glfwGetPhysicalDevicePresentationSupport`. -/
structure PhysicalDevice where
  queueFamilies : List QueueFamilyProperty
  presentSupport : List Bool
  deviceType : DeviceType
  memoryHeaps : List MemoryHeap
deriving DecidableEq, Repr

/-! ### Application info (config.hpp / config.cpp, version.hpp) -/

/-- Model of `Starlight::Core::Config::AppInfo`: the version fields are C++
bit-fields of widths 10/10/12, so storing into them truncates modulo
`2^10` / `2^10` / `2^12`. -/
structure AppInfo where
  name : String
  major : Nat
  minor : Nat
  patch : Nat
deriving DecidableEq, Repr

/-- Construction of an `AppInfo` value: the bit-field initialisers
truncate to the declared widths. -/
def mkAppInfo (name : String) (major minor patch : Nat) : AppInfo :=
  { name := name
    major := major % 2 ^ 10
    minor := minor % 2 ^ 10
    patch := patch % 2 ^ 12 }

/-- The process-wide mutable state guarded by `appMutex` in config.cpp. -/
structure ConfigState where
  appName : String
  appMajor : Nat
  appMinor : Nat
  appPatch : Nat
deriving DecidableEq, Repr

/-- Initial values of the config state (config.cpp lines 90-93;
`Version::Major = Minor = Patch = 0`). -/
def initialConfig : ConfigState :=
  { appName := "Starlight", appMajor := 0, appMinor := 0, appPatch := 0 }

/-- Model of `Config::SetAppInfo`. -/
def setAppInfo (s : ConfigState) (info : AppInfo) : ConfigState :=
  { s with
    appName := info.name
    appMajor := info.major
    appMinor := info.minor
    appPatch := info.patch }

/-- Model of `Config::GetAppName`. -/
def getAppName (s : ConfigState) : String := s.appName

/-- Model of `Config::GetAppMajor`. -/
def getAppMajor (s : ConfigState) : Nat := s.appMajor

/-- Model of `Config::GetAppMinor`. -/
def getAppMinor (s : ConfigState) : Nat := s.appMinor

/-- Model of `Config::GetAppPatch`. -/
def getAppPatch (s : ConfigState) : Nat := s.appPatch

/-! ### Swapchain image count (CreateSwapchain) -/

/-- The fields of `vk::SurfaceCapabilitiesKHR` that the swapchain image
count computation reads. -/
structure SurfaceCapabilities where
  minImageCount : Nat
  maxImageCount : Nat
deriving DecidableEq, Repr

/-- The expression `std::clamp(2u, cap.minImageCount, cap.maxImageCount)` from
`CreateSwapchain` (device.cpp line 221): `std::clamp(v, lo, hi)` is
`v < lo ? lo : hi < v ? hi : v`. -/
def swapchainImageCount (cap : SurfaceCapabilities) : Nat :=
  if 2 < cap.minImageCount then cap.minImageCount
  else if cap.maxImageCount < 2 then cap.maxImageCount
  else 2

/-! ### Physical device selection (ChoosePhysicalDevice) -/

/-- The accumulated `queueFlags |= queueFamilyProperty.queueFlags` loop of
the filter lambda (device.cpp lines 123-126). -/
def combinedQueueFlags (d : PhysicalDevice) : Nat :=
  d.queueFamilies.foldl (fun acc f => acc ||| f.queueFlags) 0

/-- The inner loop of the filter lambda (device.cpp lines 129-133): scan
the queue families for one with the graphics flag whose index passes
`glfwGetPhysicalDevicePresentationSupport`. -/
def hasPresentableGraphicsFamily (d : PhysicalDevice) : Bool :=
  (List.range d.queueFamilies.length).any fun i =>
    decide ((d.queueFamilies.getD i ⟨0, 0⟩).queueFlags &&& graphicsBit ≠ 0) &&
      d.presentSupport.getD i false

/-- The filter lambda of `ChoosePhysicalDevice` (device.cpp lines
121-136).  Note the code tests
`queueFlags & (eGraphics | eCompute | eTransfer)`, which is non-zero as
soon as ANY of the three bits is present in the combined flags. -/
def keepDevice (windowed : Bool) (d : PhysicalDevice) : Bool :=
  if combinedQueueFlags d &&& (graphicsBit ||| computeBit ||| transferBit) ≠ 0 then
    if windowed then hasPresentableGraphicsFamily d else true
  else false

/-- The `switch (deviceProperty.deviceType)` of the scoring lambda
(device.cpp lines 142-151). -/
def deviceTypeRank : DeviceType → Nat
  | DeviceType.discreteGpu => 2
  | DeviceType.integratedGpu => 1
  | DeviceType.otherGpu => 0

/-- The device-local heap-size accumulation of the scoring lambda
(device.cpp lines 152-154).  `memorySize` is a `std::size_t`, so each
addition wraps modulo `2 ^ 64`. -/
def deviceLocalMemory (d : PhysicalDevice) : Nat :=
  d.memoryHeaps.foldl
    (fun acc h =>
      if h.flags &&& deviceLocalBit ≠ 0 then (acc + h.size) % 2 ^ 64 else acc) 0

/-- The projection handed to `std::ranges::max_element`
(`std::make_tuple(deviceType, memorySize)`). -/
def scoreKey (d : PhysicalDevice) : Nat × Nat :=
  (deviceTypeRank d.deviceType, deviceLocalMemory d)

/-- Model of `operator<` on `std::tuple<std::size_t, std::size_t>`: lexicographic
comparison. -/
def scoreLt (a b : Nat × Nat) : Bool :=
  decide (a.1 < b.1) || (a.1 == b.1 && decide (a.2 < b.2))

/-- Model of `std::ranges::max_element` over a non-empty range, with comparator
`<` on the projected keys: the first maximal element is kept (the running
maximum is replaced only when a strictly greater key appears). -/
def maxByScore (d : PhysicalDevice) (ds : List PhysicalDevice) : PhysicalDevice :=
  ds.foldl (fun best cur => if scoreLt (scoreKey best) (scoreKey cur) then cur else best) d

/-- Model of `Device::Impl::ChoosePhysicalDevice` (device.cpp lines 119-159):
filter the enumerated devices, take the maximum of the survivors by the
scoring key, and fail when no device survives. -/
def choosePhysicalDevice (windowed : Bool) (devices : List PhysicalDevice) :
    Except String PhysicalDevice :=
  match devices.filter (keepDevice windowed) with
  | [] => Except.error "No suitable physical device found"
  | d :: ds => Except.ok (maxByScore d ds)

/-! ### Logical device and queue planning (CreateLogicalDevice) -/

/-- The role-assignment loop of `CreateLogicalDevice` (device.cpp lines
166-170): every family index `i` whose flags contain the capability bit of a role
overwrites the family variable of that role, which starts at 0. -/
def assignRoles (fams : List QueueFamilyProperty) : Nat × Nat × Nat :=
  (List.range fams.length).foldl
    (fun acc i =>
      (if (fams.getD i ⟨0, 0⟩).queueFlags &&& graphicsBit ≠ 0 then i else acc.1,
       if (fams.getD i ⟨0, 0⟩).queueFlags &&& computeBit ≠ 0 then i else acc.2.1,
       if (fams.getD i ⟨0, 0⟩).queueFlags &&& transferBit ≠ 0 then i else acc.2.2))
    (0, 0, 0)

/-- The slice of the assignment loop for one role; `assignRoles` is proved to
be the triple of these scans. -/
def assignRole (bit : Nat) (fams : List QueueFamilyProperty) : Nat :=
  (List.range fams.length).foldl
    (fun acc i => if (fams.getD i ⟨0, 0⟩).queueFlags &&& bit ≠ 0 then i else acc) 0

/-- The statement `queueCountList[f]++` updates the count vector in place; the
post-increment value read back is modelled separately with `getD`. -/
def bump (l : List Nat) (i : Nat) : List Nat :=
  l.set i (l.getD i 0 + 1)

/-- The per-role data computed by `CreateLogicalDevice` before building
the queue-create infos: the index-within-family returned by each
post-increment (lines 172-174) and the final per-family requested queue
counts. -/
structure QueuePlan where
  idxGraphics : Nat
  idxCompute : Nat
  idxTransfer : Nat
  counts : List Nat
deriving DecidableEq, Repr

/-- Lines 171-174 of device.cpp: `queueCountList` starts as zeros of
length `queueFamilyProperties.size()`; the family entry of each role is
post-incremented in graphics, compute, transfer order. -/
def queuePlan (fams : List QueueFamilyProperty) : QueuePlan :=
  { idxGraphics :=
      (List.replicate fams.length 0).getD (assignRoles fams).1 0
    idxCompute :=
      (bump (List.replicate fams.length 0) (assignRoles fams).1).getD
        (assignRoles fams).2.1 0
    idxTransfer :=
      (bump (bump (List.replicate fams.length 0) (assignRoles fams).1)
          (assignRoles fams).2.1).getD (assignRoles fams).2.2 0
    counts :=
      bump (bump (bump (List.replicate fams.length 0) (assignRoles fams).1)
          (assignRoles fams).2.1) (assignRoles fams).2.2 }

/-- The message of the oversubscription exception (device.cpp line 179). -/
def oversubMsg : String := "Attempted to create more queues than supported"

/-- The queue-create-info loop of `CreateLogicalDevice` (device.cpp lines
177-183), walking the (count, capacity) pairs with their family index
`i`: families with zero requested queues are skipped; a family whose
requested count exceeds its capacity throws; otherwise a create info with
`count` priorities of `1.0f` is emitted for family `i`. -/
def buildQueueInfosFrom (i : Nat) :
    List (Nat × Nat) → Except String (List (Nat × List ℚ))
  | [] => Except.ok []
  | (c, cap) :: rest =>
    if c ≠ 0 then
      if cap < c then Except.error oversubMsg
      else (buildQueueInfosFrom (i + 1) rest).map
        (fun tail => (i, List.replicate c 1) :: tail)
    else buildQueueInfosFrom (i + 1) rest

/-- The observable outcome of `CreateLogicalDevice`: the queue-create
infos handed to `vk::DeviceCreateInfo` and the `(family,
index-within-family)` pairs passed to `getQueue` for the three role
handles (device.cpp lines 200-202).  Command pools carry no data the
claims mention and are omitted. -/
structure LogicalSetup where
  queueInfos : List (Nat × List ℚ)
  queueGraphics : Nat × Nat
  queueCompute : Nat × Nat
  queueTransfer : Nat × Nat
deriving DecidableEq, Repr

/-- The requested-count / capacity pairs the queue-create-info loop
walks, indexed by family. -/
def zipCounts (fams : List QueueFamilyProperty) : List (Nat × Nat) :=
  (queuePlan fams).counts.zip (fams.map QueueFamilyProperty.queueCount)

/-- Model of `Device::Impl::CreateLogicalDevice` (device.cpp lines 160-204),
reduced to its observable queue bookkeeping. -/
def createLogicalDevice (fams : List QueueFamilyProperty) :
    Except String LogicalSetup :=
  match buildQueueInfosFrom 0 (zipCounts fams) with
  | Except.error e => Except.error e
  | Except.ok infos =>
    Except.ok
      { queueInfos := infos
        queueGraphics := ((assignRoles fams).1, (queuePlan fams).idxGraphics)
        queueCompute := ((assignRoles fams).2.1, (queuePlan fams).idxCompute)
        queueTransfer := ((assignRoles fams).2.2, (queuePlan fams).idxTransfer) }

/-- Number of roles among graphics/compute/transfer whose assigned
family is `i` (the specification-side count the requested queue counts
are compared against). -/
def roleCount (fams : List QueueFamilyProperty) (i : Nat) : Nat :=
  (if (assignRoles fams).1 = i then 1 else 0) +
  (if (assignRoles fams).2.1 = i then 1 else 0) +
  (if (assignRoles fams).2.2 = i then 1 else 0)

/-- Greatest `j < n` with `p j`, if any.  Used to characterise the
overwrite-scan role assignment. -/
def lastMatchBelow (p : Nat → Prop) [DecidablePred p] : Nat → Option Nat
  | 0 => none
  | n + 1 => if p n then some n else lastMatchBelow p n

/-! ### Frame executor trace (Impl::Clear, Device::Clear) -/

/-- The two semaphores created by `CreateSyncPrimitive`. -/
inductive Sem where
  | presentCompleted
  | renderCompleted
deriving DecidableEq, Repr

/-- The only pipeline stage `Clear` uses as a wait stage. -/
inductive PipelineStage where
  | colorAttachmentOutput
deriving DecidableEq, Repr

/-- One `vk::ClearValue`.  The code stores the floats of the caller and the
constants `1.0` / `0` without arithmetic, so the components are modelled
as rationals. -/
inductive ClearValue where
  | color (r g b a : ℚ)
  | depthStencil (depth : ℚ) (stencil : Nat)
deriving DecidableEq, Repr

/-- The three queue roles of the device. -/
inductive QueueRole where
  | graphics
  | compute
  | transfer
deriving DecidableEq, Repr

/-- One observable operation of the per-frame cycle. -/
inductive FrameOp where
  | acquireNextImage (signal : Sem) (acquired : Nat)
  | waitForFence (image : Nat)
  | beginCommandBuffer (image : Nat)
  | beginRenderPass (image : Nat) (clears : List ClearValue)
  | draw (image : Nat)
  | endRenderPass (image : Nat)
  | endCommandBuffer (image : Nat)
  | resetFence (image : Nat)
  | submit (queue : QueueRole) (buffers : List Nat) (waitSems : List Sem)
      (waitStage : PipelineStage) (signalSems : List Sem) (fence : Nat)
  | present (queue : QueueRole) (waitSems : List Sem) (images : List Nat)
deriving DecidableEq, Repr

/-- Whether an operation is a draw command. -/
def isDraw : FrameOp → Bool
  | FrameOp.draw _ => true
  | _ => false

/-- The operation sequence of `Device::Impl::Clear` (device.cpp lines
337-376), parameterised by the image index the acquire returned: acquire
(signalling the present-completed semaphore), wait on the fence of that
image, record its graphics command buffer (render pass with the two
clear values, no draw), reset the fence, submit the one buffer to the
graphics queue (waiting on present-completed at color-attachment-output,
signalling render-completed and the fence), present waiting on
render-completed. -/
def implClear (imageIndex : Nat) (r g b a : ℚ) : List FrameOp :=
  [FrameOp.acquireNextImage Sem.presentCompleted imageIndex,
   FrameOp.waitForFence imageIndex,
   FrameOp.beginCommandBuffer imageIndex,
   FrameOp.beginRenderPass imageIndex
     [ClearValue.color r g b a, ClearValue.depthStencil 1 0],
   FrameOp.endRenderPass imageIndex,
   FrameOp.endCommandBuffer imageIndex,
   FrameOp.resetFence imageIndex,
   FrameOp.submit QueueRole.graphics [imageIndex] [Sem.presentCompleted]
     PipelineStage.colorAttachmentOutput [Sem.renderCompleted] imageIndex,
   FrameOp.present QueueRole.graphics [Sem.renderCompleted] [imageIndex]]

/-- Model of `Device::Clear` (device.cpp lines 390-392): forwards to
`Impl::Clear` with alpha fixed at `1.0f`. -/
def deviceClear (imageIndex : Nat) (r g b : ℚ) : List FrameOp :=
  implClear imageIndex r g b 1

/-! ### Windowed resource construction (CreateImageViews,
CreateFramebuffers, CreateCommandBuffers, CreateSyncPrimitive) -/

/-- A color image view, remembering which swapchain image it views. -/
structure ImageView where
  image : Nat
deriving DecidableEq, Repr

/-- A framebuffer, remembering which color view it binds (the depth view
is shared and carries no per-frame data). -/
structure Framebuffer where
  colorView : ImageView
deriving DecidableEq, Repr

/-- The per-image resources created by windowed device construction.
`presentFences` records the signaled state of each fence. -/
structure WindowedResources where
  colorImageViews : List ImageView
  framebuffers : List Framebuffer
  commandBuffersGraphics : List Unit
  commandBuffersCompute : List Unit
  commandBuffersTransfer : List Unit
  presentFences : List Bool
  semaphores : List Sem
deriving DecidableEq, Repr

/-- Model of `CreateImageViews` (device.cpp lines 266-270): one color view per
swapchain image. -/
def createImageViews (images : List Nat) : List ImageView :=
  images.map (fun image => ⟨image⟩)

/-- Model of `CreateFramebuffers` (device.cpp lines 306-310): one framebuffer per
color image view. -/
def createFramebuffers (views : List ImageView) : List Framebuffer :=
  views.map (fun view => ⟨view⟩)

/-- The windowed construction steps after the swapchain exists
(device.cpp lines 94-99): image views from the swapchain images,
framebuffers from the views, three command-buffer allocations of size
`colorImageViews.size()`, one signaled fence per color view
(`vk::FenceCreateFlagBits::eSignaled`), and the two semaphores. -/
def createWindowedResources (images : List Nat) : WindowedResources :=
  { colorImageViews := createImageViews images
    framebuffers := createFramebuffers (createImageViews images)
    commandBuffersGraphics := List.replicate (createImageViews images).length ()
    commandBuffersCompute := List.replicate (createImageViews images).length ()
    commandBuffersTransfer := List.replicate (createImageViews images).length ()
    presentFences := List.replicate (createImageViews images).length true
    semaphores := [Sem.presentCompleted, Sem.renderCompleted] }

/-- A `vkWaitForFences` call on a single fence blocks exactly when the fence is
unsignaled. -/
def fenceWaitBlocks (fences : List Bool) (i : Nat) : Bool :=
  !(fences.getD i false)

end Starlight

namespace Starlight

/-! ### Helper lemmas -/

theorem scoreLt_iff (a b : Nat × Nat) :
    scoreLt a b = true ↔ a.1 < b.1 ∨ (a.1 = b.1 ∧ a.2 < b.2) := by
  simp [scoreLt, Bool.or_eq_true, Bool.and_eq_true, decide_eq_true_eq, beq_iff_eq]

theorem scoreLt_eq_false_iff (a b : Nat × Nat) :
    scoreLt a b = false ↔ b.1 < a.1 ∨ (a.1 = b.1 ∧ b.2 ≤ a.2) := by
  rw [← Bool.not_eq_true, scoreLt_iff]
  omega

theorem scoreLt_irrefl (a : Nat × Nat) : scoreLt a a = false := by
  rw [scoreLt_eq_false_iff]
  omega

theorem scoreLt_false_trans {a b c : Nat × Nat} (h1 : scoreLt a b = false)
    (h2 : scoreLt b c = false) : scoreLt a c = false := by
  rw [scoreLt_eq_false_iff] at h1 h2 ⊢
  omega

theorem scoreLt_false_of_lt_of_false {a b c : Nat × Nat}
    (h1 : scoreLt a b = true) (h2 : scoreLt c b = false) :
    scoreLt c a = false := by
  rw [scoreLt_iff] at h1
  rw [scoreLt_eq_false_iff] at h2 ⊢
  omega

theorem maxByScore_mem (d : PhysicalDevice) (ds : List PhysicalDevice) :
    maxByScore d ds ∈ d :: ds := by
  induction ds generalizing d with
  | nil => simp [maxByScore]
  | cons c cs ih =>
    have hstep : maxByScore d (c :: cs)
        = maxByScore (if scoreLt (scoreKey d) (scoreKey c) then c else d) cs := rfl
    rw [hstep]
    by_cases h : scoreLt (scoreKey d) (scoreKey c) = true
    · rw [if_pos h]
      have hm := ih c
      simp only [List.mem_cons] at hm ⊢
      tauto
    · rw [if_neg h]
      have hm := ih d
      simp only [List.mem_cons] at hm ⊢
      tauto

theorem maxByScore_not_lt (d : PhysicalDevice) (ds : List PhysicalDevice) :
    ∀ y ∈ d :: ds, scoreLt (scoreKey (maxByScore d ds)) (scoreKey y) = false := by
  induction ds generalizing d with
  | nil =>
    intro y hy
    simp only [List.mem_cons, List.not_mem_nil, or_false] at hy
    subst hy
    simp [maxByScore, scoreLt_irrefl]
  | cons c cs ih =>
    intro y hy
    have hstep : maxByScore d (c :: cs)
        = maxByScore (if scoreLt (scoreKey d) (scoreKey c) then c else d) cs := rfl
    rw [hstep]
    by_cases h : scoreLt (scoreKey d) (scoreKey c) = true
    · rw [if_pos h]
      simp only [List.mem_cons] at hy
      rcases hy with rfl | rfl | hy
      · exact scoreLt_false_of_lt_of_false h (ih c c (List.mem_cons_self c cs))
      · exact ih y y (List.mem_cons_self y cs)
      · exact ih c y (List.mem_cons_of_mem c hy)
    · rw [if_neg h]
      have hdc : scoreLt (scoreKey d) (scoreKey c) = false :=
        Bool.eq_false_iff.mpr h
      simp only [List.mem_cons] at hy
      rcases hy with rfl | rfl | hy
      · exact ih y y (List.mem_cons_self y cs)
      · exact scoreLt_false_trans (ih d d (List.mem_cons_self d cs)) hdc
      · exact ih d y (List.mem_cons_of_mem d hy)

theorem deviceTypeRank_le_two (t : DeviceType) : deviceTypeRank t ≤ 2 := by
  cases t <;> simp [deviceTypeRank]

theorem deviceTypeRank_eq_two {t : DeviceType} (h : deviceTypeRank t = 2) :
    t = DeviceType.discreteGpu := by
  cases t <;> simp [deviceTypeRank] at h ⊢

theorem hasPresentableGraphicsFamily_iff (d : PhysicalDevice) :
    hasPresentableGraphicsFamily d = true ↔
      ∃ i < d.queueFamilies.length,
        (d.queueFamilies.getD i ⟨0, 0⟩).queueFlags &&& graphicsBit ≠ 0 ∧
        d.presentSupport.getD i false = true := by
  simp [hasPresentableGraphicsFamily, List.any_eq_true, List.mem_range,
        Bool.and_eq_true, decide_eq_true_eq]

theorem foldl_prod3 {α : Type} (f g h : Nat → α → Nat) (l : List α)
    (a b c : Nat) :
    l.foldl (fun acc x => (f acc.1 x, g acc.2.1 x, h acc.2.2 x)) (a, b, c) =
      (l.foldl f a, l.foldl g b, l.foldl h c) := by
  induction l generalizing a b c with
  | nil => rfl
  | cons x xs ih =>
    simp only [List.foldl_cons]
    exact ih (f a x) (g b x) (h c x)

theorem assignRoles_eq (fams : List QueueFamilyProperty) :
    assignRoles fams =
      (assignRole graphicsBit fams, assignRole computeBit fams,
       assignRole transferBit fams) := by
  unfold assignRoles assignRole
  exact foldl_prod3
    (fun a i => if (fams.getD i ⟨0, 0⟩).queueFlags &&& graphicsBit ≠ 0 then i else a)
    (fun a i => if (fams.getD i ⟨0, 0⟩).queueFlags &&& computeBit ≠ 0 then i else a)
    (fun a i => if (fams.getD i ⟨0, 0⟩).queueFlags &&& transferBit ≠ 0 then i else a)
    (List.range fams.length) 0 0 0

theorem foldl_overwrite_eq_lastMatchBelow (p : Nat → Prop) [DecidablePred p]
    (a : Nat) (n : Nat) :
    (List.range n).foldl (fun acc i => if p i then i else acc) a
      = (lastMatchBelow p n).getD a := by
  induction n with
  | zero => rfl
  | succ n ih =>
    rw [List.range_succ, List.foldl_append, List.foldl_cons, List.foldl_nil, ih]
    by_cases h : p n
    · simp [lastMatchBelow, h]
    · simp [lastMatchBelow, h]

theorem lastMatchBelow_none_iff (p : Nat → Prop) [DecidablePred p] (n : Nat) :
    lastMatchBelow p n = none ↔ ∀ i < n, ¬p i := by
  induction n with
  | zero => simp [lastMatchBelow]
  | succ n ih =>
    by_cases h : p n
    · simp only [lastMatchBelow, if_pos h]
      constructor
      · intro h2
        cases h2
      · intro h2
        exact absurd h (h2 n (Nat.lt_succ_self n))
    · simp only [lastMatchBelow, if_neg h]
      rw [ih]
      constructor
      · intro h2 i hi
        rcases Nat.lt_succ_iff_lt_or_eq.mp hi with hlt | rfl
        · exact h2 i hlt
        · exact h
      · intro h2 i hi
        exact h2 i (Nat.lt_succ_of_lt hi)

theorem lastMatchBelow_some (p : Nat → Prop) [DecidablePred p] (n j : Nat)
    (h : lastMatchBelow p n = some j) :
    p j ∧ j < n ∧ ∀ k < n, p k → k ≤ j := by
  induction n with
  | zero => cases h
  | succ n ih =>
    by_cases hp : p n
    · simp only [lastMatchBelow, if_pos hp] at h
      injection h with h2
      subst h2
      exact ⟨hp, Nat.lt_succ_self _, fun k hk _ => Nat.lt_succ_iff.mp hk⟩
    · simp only [lastMatchBelow, if_neg hp] at h
      obtain ⟨h1, h2, h3⟩ := ih h
      refine ⟨h1, Nat.lt_succ_of_lt h2, ?_⟩
      intro k hk hpk
      rcases Nat.lt_succ_iff_lt_or_eq.mp hk with hlt | rfl
      · exact h3 k hlt hpk
      · exact absurd hpk hp

theorem assignRole_lt (bit : Nat) (fams : List QueueFamilyProperty)
    (h : 0 < fams.length) : assignRole bit fams < fams.length := by
  unfold assignRole
  rw [foldl_overwrite_eq_lastMatchBelow]
  cases hm : lastMatchBelow
      (fun i => (fams.getD i ⟨0, 0⟩).queueFlags &&& bit ≠ 0) fams.length with
  | none => simpa using h
  | some j =>
    have h2 := lastMatchBelow_some _ _ _ hm
    simpa using h2.2.1

theorem getD_replicate_zero (n i : Nat) :
    (List.replicate n (0 : Nat)).getD i 0 = 0 := by
  induction n generalizing i with
  | zero => cases i <;> rfl
  | succ n ih =>
    cases i with
    | zero => rfl
    | succ i => exact ih i

theorem getD_set_self (l : List Nat) (i a : Nat) (h : i < l.length) :
    (l.set i a).getD i 0 = a := by
  induction l generalizing i with
  | nil => simp at h
  | cons x xs ih =>
    cases i with
    | zero => rfl
    | succ i =>
      show (x :: xs.set i a).getD (i + 1) 0 = a
      rw [List.getD_cons_succ]
      exact ih i (by simp only [List.length_cons] at h; omega)

theorem getD_set_ne (l : List Nat) (i j a : Nat) (h : i ≠ j) :
    (l.set i a).getD j 0 = l.getD j 0 := by
  induction l generalizing i j with
  | nil => simp
  | cons x xs ih =>
    cases i with
    | zero =>
      cases j with
      | zero => exact absurd rfl h
      | succ j => rfl
    | succ i =>
      cases j with
      | zero => rfl
      | succ j =>
        show (x :: xs.set i a).getD (j + 1) 0 = (x :: xs).getD (j + 1) 0
        rw [List.getD_cons_succ, List.getD_cons_succ]
        exact ih i j (by omega)

theorem getD_bump (l : List Nat) (i j : Nat) (h : i < l.length) :
    (bump l i).getD j 0 =
      if i = j then l.getD j 0 + 1 else l.getD j 0 := by
  by_cases hij : i = j
  · subst hij
    rw [if_pos rfl]
    exact getD_set_self l i (l.getD i 0 + 1) h
  · rw [if_neg hij]
    exact getD_set_ne l i j (l.getD i 0 + 1) hij

theorem length_bump (l : List Nat) (i : Nat) : (bump l i).length = l.length := by
  simp [bump]

theorem getD_zip (c k : List Nat) (j : Nat) (h1 : j < c.length)
    (h2 : j < k.length) :
    (c.zip k).getD j (0, 0) = (c.getD j 0, k.getD j 0) := by
  induction c generalizing k j with
  | nil => simp at h1
  | cons a c ih =>
    cases k with
    | nil => simp at h2
    | cons b k =>
      cases j with
      | zero => rfl
      | succ j =>
        show (c.zip k).getD j (0, 0) = (c.getD j 0, k.getD j 0)
        exact ih k j (by simp only [List.length_cons] at h1; omega)
          (by simp only [List.length_cons] at h2; omega)

theorem getD_map_queueCount (fams : List QueueFamilyProperty) (j : Nat)
    (h : j < fams.length) :
    (fams.map QueueFamilyProperty.queueCount).getD j 0 =
      (fams.getD j ⟨0, 0⟩).queueCount := by
  induction fams generalizing j with
  | nil => simp at h
  | cons f fs ih =>
    cases j with
    | zero => rfl
    | succ j => exact ih j (by simp only [List.length_cons] at h; omega)

theorem except_map_eq_error_iff {α β : Type} (e : Except String α)
    (f : α → β) (m : String) :
    e.map f = Except.error m ↔ e = Except.error m := by
  cases e <;> simp [Except.map]

theorem buildQueueInfosFrom_error_iff (l : List (Nat × Nat)) (i : Nat) :
    buildQueueInfosFrom i l = Except.error oversubMsg ↔ ∃ p ∈ l, p.2 < p.1 := by
  induction l generalizing i with
  | nil => simp [buildQueueInfosFrom]
  | cons hd tl ih =>
    obtain ⟨c, cap⟩ := hd
    simp only [buildQueueInfosFrom]
    by_cases hc : c ≠ 0
    · rw [if_pos hc]
      by_cases hcap : cap < c
      · rw [if_pos hcap]
        constructor
        · intro _
          exact ⟨(c, cap), List.mem_cons_self _ _, hcap⟩
        · intro _
          rfl
      · rw [if_neg hcap]
        rw [except_map_eq_error_iff, ih]
        constructor
        · rintro ⟨p, hp, hplt⟩
          exact ⟨p, List.mem_cons_of_mem _ hp, hplt⟩
        · rintro ⟨p, hp, hplt⟩
          rcases List.mem_cons.mp hp with rfl | hp2
          · exact absurd hplt hcap
          · exact ⟨p, hp2, hplt⟩
    · rw [if_neg hc]
      push_neg at hc
      subst hc
      rw [ih]
      constructor
      · rintro ⟨p, hp, hplt⟩
        exact ⟨p, List.mem_cons_of_mem _ hp, hplt⟩
      · rintro ⟨p, hp, hplt⟩
        rcases List.mem_cons.mp hp with rfl | hp2
        · exact absurd hplt (Nat.not_lt_zero cap)
        · exact ⟨p, hp2, hplt⟩

theorem buildQueueInfosFrom_error_msg (l : List (Nat × Nat)) (i : Nat)
    (e : String) (h : buildQueueInfosFrom i l = Except.error e) :
    e = oversubMsg := by
  induction l generalizing i with
  | nil => cases h
  | cons hd tl ih =>
    obtain ⟨c, cap⟩ := hd
    simp only [buildQueueInfosFrom] at h
    by_cases hc : c ≠ 0
    · rw [if_pos hc] at h
      by_cases hcap : cap < c
      · rw [if_pos hcap] at h
        exact (Except.error.inj h).symm
      · rw [if_neg hcap] at h
        cases hb : buildQueueInfosFrom (i + 1) tl with
        | error e2 =>
          rw [hb] at h
          simp only [Except.map] at h
          injection h with h2
          subst h2
          exact ih (i + 1) hb
        | ok infos =>
          rw [hb] at h
          simp only [Except.map] at h
          cases h
    · rw [if_neg hc] at h
      exact ih (i + 1) h

theorem buildQueueInfosFrom_ok_mem (l : List (Nat × Nat)) (i : Nat)
    (infos : List (Nat × List ℚ))
    (h : buildQueueInfosFrom i l = Except.ok infos) :
    ∀ q ∈ infos, ∃ k < l.length, q.1 = i + k ∧
      q.2 = List.replicate (l.getD k (0, 0)).1 1 ∧ (l.getD k (0, 0)).1 ≠ 0 := by
  induction l generalizing i infos with
  | nil =>
    intro q hq
    simp only [buildQueueInfosFrom] at h
    injection h with h2
    subst h2
    cases hq
  | cons hd tl ih =>
    obtain ⟨c, cap⟩ := hd
    intro q hq
    simp only [buildQueueInfosFrom] at h
    by_cases hc : c ≠ 0
    · rw [if_pos hc] at h
      by_cases hcap : cap < c
      · rw [if_pos hcap] at h
        cases h
      · rw [if_neg hcap] at h
        cases hb : buildQueueInfosFrom (i + 1) tl with
        | error e =>
          rw [hb] at h
          simp only [Except.map] at h
          cases h
        | ok tail =>
          rw [hb] at h
          simp only [Except.map] at h
          injection h with h2
          subst h2
          rcases List.mem_cons.mp hq with rfl | hq2
          · exact ⟨0, by simp, by simp, rfl, hc⟩
          · obtain ⟨k, hk, hq1, hq2b, hq3⟩ := ih (i + 1) tail hb q hq2
            refine ⟨k + 1, ?_, by omega, hq2b, hq3⟩
            simp only [List.length_cons]
            omega
    · rw [if_neg hc] at h
      push_neg at hc
      subst hc
      obtain ⟨k, hk, hq1, hq2b, hq3⟩ := ih (i + 1) infos h q hq
      refine ⟨k + 1, ?_, by omega, hq2b, hq3⟩
      simp only [List.length_cons]
      omega

theorem exists_zip_lt_iff (c k : List Nat) :
    (∃ p ∈ c.zip k, p.2 < p.1) ↔
      ∃ j, j < c.length ∧ j < k.length ∧ k.getD j 0 < c.getD j 0 := by
  induction c generalizing k with
  | nil => simp
  | cons a c ih =>
    cases k with
    | nil => simp
    | cons b k =>
      constructor
      · rintro ⟨p, hp, hlt⟩
        rcases List.mem_cons.mp hp with rfl | hp2
        · exact ⟨0, by simp, by simp, hlt⟩
        · obtain ⟨j, h1, h2, h3⟩ := (ih k).mp ⟨p, hp2, hlt⟩
          refine ⟨j + 1, ?_, ?_, h3⟩
          · simp only [List.length_cons]
            omega
          · simp only [List.length_cons]
            omega
      · rintro ⟨j, h1, h2, h3⟩
        cases j with
        | zero => exact ⟨(a, b), List.mem_cons_self _ _, h3⟩
        | succ j =>
          obtain ⟨p, hp, hlt⟩ := (ih k).mpr
            ⟨j, by simp only [List.length_cons] at h1; omega,
              by simp only [List.length_cons] at h2; omega, h3⟩
          exact ⟨p, List.mem_cons_of_mem _ hp, hlt⟩

theorem queuePlan_counts_length (fams : List QueueFamilyProperty) :
    (queuePlan fams).counts.length = fams.length := by
  simp [queuePlan, bump, List.length_set, List.length_replicate]

theorem assignRoles_lt (fams : List QueueFamilyProperty) (h : 0 < fams.length) :
    (assignRoles fams).1 < fams.length ∧
    (assignRoles fams).2.1 < fams.length ∧
    (assignRoles fams).2.2 < fams.length := by
  rw [assignRoles_eq]
  exact ⟨assignRole_lt _ _ h, assignRole_lt _ _ h, assignRole_lt _ _ h⟩

theorem queuePlan_counts_getD (fams : List QueueFamilyProperty) (i : Nat)
    (h : i < fams.length) :
    (queuePlan fams).counts.getD i 0 = roleCount fams i := by
  have hpos : 0 < fams.length := by omega
  obtain ⟨hG, hC, hT⟩ := assignRoles_lt fams hpos
  have hlen1 : (List.replicate fams.length (0 : Nat)).length = fams.length :=
    List.length_replicate _ _
  simp only [queuePlan, roleCount]
  rw [getD_bump _ _ _ (by rw [length_bump, length_bump, hlen1]; exact hT),
    getD_bump _ _ _ (by rw [length_bump, hlen1]; exact hC),
    getD_bump _ _ _ (by rw [hlen1]; exact hG),
    getD_replicate_zero]
  split_ifs <;> omega

theorem buildQueueInfosFrom_zeros (caps : List Nat) (n i : Nat) :
    buildQueueInfosFrom i ((List.replicate n (0 : Nat)).zip caps) =
      Except.ok [] := by
  induction caps generalizing n i with
  | nil => cases n <;> rfl
  | cons cap caps ih =>
    cases n with
    | zero => rfl
    | succ n =>
      show buildQueueInfosFrom i ((0, cap) :: (List.replicate n 0).zip caps) =
        Except.ok []
      simp only [buildQueueInfosFrom]
      rw [if_neg (by omega : ¬(0 : Nat) ≠ 0)]
      exact ih n (i + 1)

theorem buildQueueInfosFrom_single (caps : List Nat) (i f : Nat)
    (hf : f < caps.length) (hcap : 3 ≤ caps.getD f 0) :
    buildQueueInfosFrom i
        (((List.replicate caps.length (0 : Nat)).set f 3).zip caps) =
      Except.ok [(i + f, List.replicate 3 (1 : ℚ))] := by
  induction caps generalizing i f with
  | nil => simp at hf
  | cons cap caps ih =>
    cases f with
    | zero =>
      show buildQueueInfosFrom i
          ((3, cap) :: (List.replicate caps.length 0).zip caps) =
        Except.ok [(i + 0, List.replicate 3 1)]
      simp only [buildQueueInfosFrom]
      rw [if_pos (by omega : (3 : Nat) ≠ 0),
        if_neg (by
          have h2 : 3 ≤ cap := hcap
          omega : ¬cap < 3),
        buildQueueInfosFrom_zeros]
      simp [Except.map]
    | succ f =>
      show buildQueueInfosFrom i
          ((0, cap) :: ((List.replicate caps.length 0).set f 3).zip caps) =
        Except.ok [(i + (f + 1), List.replicate 3 1)]
      simp only [buildQueueInfosFrom]
      rw [if_neg (by omega : ¬(0 : Nat) ≠ 0)]
      rw [ih (i + 1) f (by simp only [List.length_cons] at hf; omega)
        (by exact hcap)]
      rw [show i + 1 + f = i + (f + 1) from by omega]

theorem queuePlan_sameFamily (fams : List QueueFamilyProperty) (f : Nat)
    (hroles : assignRoles fams = (f, f, f)) (hf : f < fams.length) :
    queuePlan fams =
      ⟨0, 1, 2, (List.replicate fams.length 0).set f 3⟩ := by
  have hlen : (List.replicate fams.length (0 : Nat)).length = fams.length :=
    List.length_replicate _ _
  have h0 : (List.replicate fams.length (0 : Nat)).getD f 0 = 0 :=
    getD_replicate_zero _ _
  have hb1 : bump (List.replicate fams.length 0) f =
      (List.replicate fams.length 0).set f 1 := by
    rw [bump, h0]
  have h1 : ((List.replicate fams.length (0 : Nat)).set f 1).getD f 0 = 1 :=
    getD_set_self _ _ _ (by rw [hlen]; exact hf)
  have hb2 : bump ((List.replicate fams.length 0).set f 1) f =
      (List.replicate fams.length 0).set f 2 := by
    rw [bump, h1, List.set_set]
  have h2 : ((List.replicate fams.length (0 : Nat)).set f 2).getD f 0 = 2 :=
    getD_set_self _ _ _ (by rw [hlen]; exact hf)
  have hb3 : bump ((List.replicate fams.length 0).set f 2) f =
      (List.replicate fams.length 0).set f 3 := by
    rw [bump, h2, List.set_set]
  simp only [queuePlan, hroles]
  rw [hb1, hb2, hb3, h0, h1, h2]

/-! ### Theorems: C5 and C8 -/

/-- C5: for every surface capability report with
`maxImageCount ≥ minImageCount ≥ 1`, the swapchain image count `N` equals
`clamp(2, minImageCount, maxImageCount)`, hence
`minImageCount ≤ N ≤ maxImageCount`, and `N ≥ 2` whenever the surface
supports at least 2 images. -/
theorem swapchainImageCount_clamped (cap : SurfaceCapabilities)
    (hmin : 1 ≤ cap.minImageCount) (hle : cap.minImageCount ≤ cap.maxImageCount) :
    swapchainImageCount cap = max cap.minImageCount (min 2 cap.maxImageCount) ∧
    cap.minImageCount ≤ swapchainImageCount cap ∧
    swapchainImageCount cap ≤ cap.maxImageCount ∧
    (2 ≤ cap.maxImageCount → 2 ≤ swapchainImageCount cap) := by
  unfold swapchainImageCount
  split_ifs <;> omega

/-- Witness for C5 at the concrete capability report (min 1, max 3). -/
theorem swapchainImageCount_clamped_witness :
    swapchainImageCount ⟨1, 3⟩ = max 1 (min 2 3) ∧
    1 ≤ swapchainImageCount ⟨1, 3⟩ ∧
    swapchainImageCount ⟨1, 3⟩ ≤ 3 ∧
    (2 ≤ 3 → 2 ≤ swapchainImageCount ⟨1, 3⟩) :=
  swapchainImageCount_clamped ⟨1, 3⟩ (by decide) (by decide)

/-- C8: for all name strings and all major, minor in 0–1023 and patch in
0–4095, calling `SetAppInfo` and then reading `GetAppName` / `GetAppMajor`
/ `GetAppMinor` / `GetAppPatch` (with no intervening write) returns exactly
the values that were set. -/
theorem appInfo_roundTrip (s : ConfigState) (name : String)
    (major minor patch : Nat)
    (hmaj : major ≤ 1023) (hmin : minor ≤ 1023) (hpat : patch ≤ 4095) :
    getAppName (setAppInfo s (mkAppInfo name major minor patch)) = name ∧
    getAppMajor (setAppInfo s (mkAppInfo name major minor patch)) = major ∧
    getAppMinor (setAppInfo s (mkAppInfo name major minor patch)) = minor ∧
    getAppPatch (setAppInfo s (mkAppInfo name major minor patch)) = patch := by
  refine ⟨rfl, ?_, ?_, ?_⟩ <;>
    simp only [getAppMajor, getAppMinor, getAppPatch, setAppInfo, mkAppInfo] <;>
    omega

/-- Witness for C8 at the initial state with name "Demo" and
version 1023.1023.4095. -/
theorem appInfo_roundTrip_witness :
    getAppName (setAppInfo initialConfig (mkAppInfo "Demo" 1023 1023 4095)) = "Demo" ∧
    getAppMajor (setAppInfo initialConfig (mkAppInfo "Demo" 1023 1023 4095)) = 1023 ∧
    getAppMinor (setAppInfo initialConfig (mkAppInfo "Demo" 1023 1023 4095)) = 1023 ∧
    getAppPatch (setAppInfo initialConfig (mkAppInfo "Demo" 1023 1023 4095)) = 4095 :=
  appInfo_roundTrip initialConfig "Demo" 1023 1023 4095
    (by decide) (by decide) (by decide)

/-! ### Theorems: C1 -/

/-- C1 counterexample: a device whose only queue family is
transfer-only — its combined flags lack both graphics and compute —
passes the filter and is selected, because the code tests
`queueFlags & (eGraphics | eCompute | eTransfer)` for ANY of the three
bits rather than all of them.  This refutes the claim that a device
lacking any of the three capabilities is filtered out. -/
theorem keepDevice_requiresAllThree_counterexample :
    keepDevice false ⟨[⟨transferBit, 1⟩], [], DeviceType.otherGpu, []⟩ = true ∧
    combinedQueueFlags ⟨[⟨transferBit, 1⟩], [], DeviceType.otherGpu, []⟩ &&&
      graphicsBit = 0 ∧
    combinedQueueFlags ⟨[⟨transferBit, 1⟩], [], DeviceType.otherGpu, []⟩ &&&
      computeBit = 0 ∧
    choosePhysicalDevice false [⟨[⟨transferBit, 1⟩], [], DeviceType.otherGpu, []⟩] =
      Except.ok ⟨[⟨transferBit, 1⟩], [], DeviceType.otherGpu, []⟩ :=
  ⟨by decide, by decide, by decide, rfl⟩

/-- C1 (amended): the filter keeps exactly the devices whose combined
queue-family capability flags include AT LEAST ONE of graphics, compute,
transfer, and — when a window is attached — that additionally have a
graphics-capable queue family supporting presentation; a device whose
combined flags contain none of the three bits is filtered out. -/
theorem keepDevice_characterization (windowed : Bool) (d : PhysicalDevice) :
    keepDevice windowed d = true ↔
      (combinedQueueFlags d &&& (graphicsBit ||| computeBit ||| transferBit) ≠ 0 ∧
       (windowed = true →
         ∃ i < d.queueFamilies.length,
           (d.queueFamilies.getD i ⟨0, 0⟩).queueFlags &&& graphicsBit ≠ 0 ∧
           d.presentSupport.getD i false = true)) := by
  unfold keepDevice
  by_cases hc : combinedQueueFlags d &&& (graphicsBit ||| computeBit ||| transferBit) ≠ 0
  · rw [if_pos hc]
    cases windowed with
    | false => simp [hc]
    | true => simp [hc, hasPresentableGraphicsFamily_iff]
  · rw [if_neg hc]
    simp [hc]

/-- Witness for C1 (amended) on a windowed device with one presentable
graphics family. -/
theorem keepDevice_characterization_witness :
    keepDevice true ⟨[⟨graphicsBit, 1⟩], [true], DeviceType.discreteGpu, []⟩ = true :=
  (keepDevice_characterization true
      ⟨[⟨graphicsBit, 1⟩], [true], DeviceType.discreteGpu, []⟩).mpr
    ⟨by decide, fun _ => ⟨0, by decide, by decide, by decide⟩⟩

/-! ### Theorems: C7 -/

/-- C7: for every non-empty survivor list, selection returns a survivor
that is maximal for the lexicographic key
`(deviceTypeRank, deviceLocalMemory)` (rank: discrete = 2,
integrated = 1, other = 0; memory: sum of device-local heap sizes); the
choice is deterministic, and a discrete-GPU survivor is never passed
over in favor of a lower-ranked survivor, whatever its memory. -/
theorem choosePhysicalDevice_max (windowed : Bool)
    (devices : List PhysicalDevice) (d : PhysicalDevice)
    (h : choosePhysicalDevice windowed devices = Except.ok d) :
    d ∈ devices.filter (keepDevice windowed) ∧
    (∀ e ∈ devices.filter (keepDevice windowed),
        scoreLt (scoreKey d) (scoreKey e) = false) ∧
    (∀ e ∈ devices.filter (keepDevice windowed),
        e.deviceType = DeviceType.discreteGpu →
          d.deviceType = DeviceType.discreteGpu) ∧
    (∀ d2, choosePhysicalDevice windowed devices = Except.ok d2 → d2 = d) := by
  unfold choosePhysicalDevice at h
  cases hf : devices.filter (keepDevice windowed) with
  | nil =>
    rw [hf] at h
    have h2 : (Except.error "No suitable physical device found" :
        Except String PhysicalDevice) = Except.ok d := h
    cases h2
  | cons x xs =>
    rw [hf] at h
    have h2 : Except.ok (maxByScore x xs) = Except.ok d := h
    have hd : d = maxByScore x xs := (Except.ok.inj h2).symm
    subst hd
    refine ⟨?_, ?_, ?_, ?_⟩
    · exact maxByScore_mem x xs
    · exact maxByScore_not_lt x xs
    · intro e he hdisc
      have hnl := maxByScore_not_lt x xs e he
      rw [scoreLt_eq_false_iff] at hnl
      have hke : (scoreKey e).1 = 2 := by
        simp [scoreKey, hdisc, deviceTypeRank]
      have hle : (scoreKey (maxByScore x xs)).1 ≤ 2 := by
        simpa [scoreKey] using deviceTypeRank_le_two (maxByScore x xs).deviceType
      have heq : (scoreKey (maxByScore x xs)).1 = 2 := by omega
      exact deviceTypeRank_eq_two (by simpa [scoreKey] using heq)
    · intro d2 hd2
      unfold choosePhysicalDevice at hd2
      rw [hf] at hd2
      have h3 : Except.ok (maxByScore x xs) = Except.ok d2 := hd2
      exact (Except.ok.inj h3).symm

/-- Witness for C7: between an integrated GPU with 64 units of
device-local memory and a discrete GPU with 8, selection picks the
discrete GPU, which is a survivor of the filter. -/
theorem choosePhysicalDevice_max_witness :
    (⟨[⟨7, 1⟩], [], DeviceType.discreteGpu, [⟨1, 8⟩]⟩ : PhysicalDevice) ∈
      ([⟨[⟨7, 1⟩], [], DeviceType.integratedGpu, [⟨1, 64⟩]⟩,
        ⟨[⟨7, 1⟩], [], DeviceType.discreteGpu, [⟨1, 8⟩]⟩] :
        List PhysicalDevice).filter (keepDevice false) :=
  (choosePhysicalDevice_max false
      [⟨[⟨7, 1⟩], [], DeviceType.integratedGpu, [⟨1, 64⟩]⟩,
       ⟨[⟨7, 1⟩], [], DeviceType.discreteGpu, [⟨1, 8⟩]⟩]
      ⟨[⟨7, 1⟩], [], DeviceType.discreteGpu, [⟨1, 8⟩]⟩ rfl).1

/-! ### Theorems: C10 -/

/-- C10: the role-assignment scan assigns each role the HIGHEST-indexed
queue family whose flags include the capability bit of the role (later
matches overwrite earlier ones); with no matching family the index of
the role stays 0.  The single loop of the code (`assignRoles`) is exactly
the triple of per-role scans. -/
theorem assignRole_highestIndexed (bit : Nat) (fams : List QueueFamilyProperty) :
    ((∀ i < fams.length, (fams.getD i ⟨0, 0⟩).queueFlags &&& bit = 0) →
        assignRole bit fams = 0) ∧
    (∀ j < fams.length, (fams.getD j ⟨0, 0⟩).queueFlags &&& bit ≠ 0 →
        (fams.getD (assignRole bit fams) ⟨0, 0⟩).queueFlags &&& bit ≠ 0 ∧
        j ≤ assignRole bit fams) ∧
    assignRoles fams =
      (assignRole graphicsBit fams, assignRole computeBit fams,
       assignRole transferBit fams) := by
  refine ⟨?_, ?_, assignRoles_eq fams⟩
  · intro hnone
    unfold assignRole
    rw [foldl_overwrite_eq_lastMatchBelow]
    have hn : lastMatchBelow
        (fun i => (fams.getD i ⟨0, 0⟩).queueFlags &&& bit ≠ 0) fams.length = none :=
      (lastMatchBelow_none_iff _ _).mpr
        (fun i hi hne => hne (hnone i hi))
    rw [hn]
    rfl
  · intro j hj hbit
    unfold assignRole
    rw [foldl_overwrite_eq_lastMatchBelow]
    cases hm : lastMatchBelow
        (fun i => (fams.getD i ⟨0, 0⟩).queueFlags &&& bit ≠ 0) fams.length with
    | none =>
      exact absurd hbit ((lastMatchBelow_none_iff _ _).mp hm j hj)
    | some k =>
      obtain ⟨h1, h2, h3⟩ := lastMatchBelow_some _ _ _ hm
      exact ⟨h1, h3 j hj hbit⟩

/-- Witness for C10: with families [transfer, graphics+transfer,
compute], the graphics role lands on the matching family of index 1. -/
theorem assignRole_highestIndexed_witness :
    (([⟨4, 1⟩, ⟨5, 1⟩, ⟨2, 1⟩] : List QueueFamilyProperty).getD
        (assignRole graphicsBit [⟨4, 1⟩, ⟨5, 1⟩, ⟨2, 1⟩]) ⟨0, 0⟩).queueFlags &&&
      graphicsBit ≠ 0 ∧
    1 ≤ assignRole graphicsBit [⟨4, 1⟩, ⟨5, 1⟩, ⟨2, 1⟩] :=
  (assignRole_highestIndexed graphicsBit [⟨4, 1⟩, ⟨5, 1⟩, ⟨2, 1⟩]).2.1 1
    (by decide) (by decide)

/-! ### Theorems: C3 -/

/-- C3: one queue is requested per distinct role mapped to a family
(the per-family requested count equals the number of roles assigned to
it), every emitted queue-create info carries one priority `1.0` per
requested queue; construction fails with the oversubscription error
exactly when the requested count of some family exceeds its reported
`queueCount`, before any device object exists, and succeeds otherwise. -/
theorem queueRequestCounts (fams : List QueueFamilyProperty) :
    (∀ i < fams.length,
        (queuePlan fams).counts.getD i 0 = roleCount fams i) ∧
    (createLogicalDevice fams = Except.error oversubMsg ↔
      ∃ i < fams.length,
        (fams.getD i ⟨0, 0⟩).queueCount < (queuePlan fams).counts.getD i 0) ∧
    (∀ s, createLogicalDevice fams = Except.ok s →
      ∀ q ∈ s.queueInfos,
        q.2 = List.replicate ((queuePlan fams).counts.getD q.1 0) 1 ∧
        (queuePlan fams).counts.getD q.1 0 ≠ 0) ∧
    ((¬∃ i < fams.length,
        (fams.getD i ⟨0, 0⟩).queueCount < (queuePlan fams).counts.getD i 0) →
      ∃ s, createLogicalDevice fams = Except.ok s) := by
  have hcl : (queuePlan fams).counts.length = fams.length :=
    queuePlan_counts_length fams
  have hml : (fams.map QueueFamilyProperty.queueCount).length = fams.length :=
    List.length_map _ _
  have hidx : (∃ p ∈ zipCounts fams, p.2 < p.1) ↔
      ∃ i < fams.length,
        (fams.getD i ⟨0, 0⟩).queueCount < (queuePlan fams).counts.getD i 0 := by
    rw [zipCounts, exists_zip_lt_iff]
    constructor
    · rintro ⟨j, h1, h2, h3⟩
      have hj : j < fams.length := by rwa [hcl] at h1
      refine ⟨j, hj, ?_⟩
      rwa [getD_map_queueCount fams j hj] at h3
    · rintro ⟨i, h1, h2⟩
      refine ⟨i, by rw [hcl]; exact h1, by rw [hml]; exact h1, ?_⟩
      rw [getD_map_queueCount fams i h1]
      exact h2
  have herr : createLogicalDevice fams = Except.error oversubMsg ↔
      buildQueueInfosFrom 0 (zipCounts fams) = Except.error oversubMsg := by
    unfold createLogicalDevice
    cases hb : buildQueueInfosFrom 0 (zipCounts fams) with
    | error e =>
      have he := buildQueueInfosFrom_error_msg _ _ _ hb
      subst he
      simp
    | ok infos => simp
  refine ⟨fun i hi => queuePlan_counts_getD fams i hi, ?_, ?_, ?_⟩
  · rw [herr, buildQueueInfosFrom_error_iff]
    exact hidx
  · intro s hs
    unfold createLogicalDevice at hs
    cases hb : buildQueueInfosFrom 0 (zipCounts fams) with
    | error e =>
      rw [hb] at hs
      cases hs
    | ok infos =>
      rw [hb] at hs
      have hs2 : Except.ok
          ({ queueInfos := infos
             queueGraphics := ((assignRoles fams).1, (queuePlan fams).idxGraphics)
             queueCompute := ((assignRoles fams).2.1, (queuePlan fams).idxCompute)
             queueTransfer :=
               ((assignRoles fams).2.2, (queuePlan fams).idxTransfer) } :
            LogicalSetup) = Except.ok s := hs
      obtain rfl := Except.ok.inj hs2
      intro q hq
      obtain ⟨k, hk, hq1, hq2, hq3⟩ :=
        buildQueueInfosFrom_ok_mem _ _ _ hb q hq
      have hk2 : k < fams.length := by
        rw [zipCounts, List.length_zip, hcl, hml] at hk
        omega
      have hzip : (zipCounts fams).getD k (0, 0) =
          ((queuePlan fams).counts.getD k 0,
           (fams.map QueueFamilyProperty.queueCount).getD k 0) := by
        rw [zipCounts]
        exact getD_zip _ _ k (by rw [hcl]; exact hk2) (by rw [hml]; exact hk2)
      rw [hzip] at hq2 hq3
      rw [hq1, Nat.zero_add]
      exact ⟨hq2, hq3⟩
  · intro hno
    cases hb : buildQueueInfosFrom 0 (zipCounts fams) with
    | error e =>
      have he := buildQueueInfosFrom_error_msg _ _ _ hb
      subst he
      have hex := (buildQueueInfosFrom_error_iff _ _).mp hb
      exact absurd (hidx.mp hex) hno
    | ok infos =>
      refine ⟨{ queueInfos := infos
                queueGraphics :=
                  ((assignRoles fams).1, (queuePlan fams).idxGraphics)
                queueCompute :=
                  ((assignRoles fams).2.1, (queuePlan fams).idxCompute)
                queueTransfer :=
                  ((assignRoles fams).2.2, (queuePlan fams).idxTransfer) }, ?_⟩
      unfold createLogicalDevice
      rw [hb]

/-- Witness for C3: a single graphics+compute+transfer family reporting
only 2 queues is oversubscribed by the 3 requested role queues, so
construction fails with the oversubscription error. -/
theorem queueRequestCounts_witness :
    createLogicalDevice [⟨7, 2⟩] = Except.error oversubMsg :=
  (queueRequestCounts [⟨7, 2⟩]).2.1.mpr ⟨0, by decide, by decide⟩

/-! ### Theorems: C2 -/

/-- C2 counterexample: with a single queue family carrying all three
capability bits and 3 hardware queues, all three roles map to family 0,
yet the code requests THREE queues from that family (one queue-create
info with three priorities) and the three role handles get DISTINCT
indices within the family — `(0,0)`, `(0,1)`, `(0,2)` — refuting the
claim that exactly 1 queue is requested and that the three handles refer
to the same underlying queue. -/
theorem queueAliasing_counterexample :
    createLogicalDevice [⟨7, 3⟩] =
      Except.ok
        { queueInfos := [(0, [1, 1, 1])]
          queueGraphics := (0, 0)
          queueCompute := (0, 1)
          queueTransfer := (0, 2) } ∧
    ((0, 0) : Nat × Nat) ≠ (0, 1) :=
  ⟨rfl, by decide⟩

/-- C2 (amended): when all three roles map to the same queue family `f`
(and the family reports at least 3 queues), logical-device creation
requests exactly THREE queues from that family — a single queue-create
info for `f` with three priorities of `1.0` — and the three role queue
handles share the family index but have pairwise DISTINCT
indices-within-family 0, 1, 2. -/
theorem queueAliasing_sameFamily (fams : List QueueFamilyProperty) (f : Nat)
    (hroles : assignRoles fams = (f, f, f)) (hf : f < fams.length)
    (hcap : 3 ≤ (fams.getD f ⟨0, 0⟩).queueCount) :
    createLogicalDevice fams =
      Except.ok
        { queueInfos := [(f, List.replicate 3 (1 : ℚ))]
          queueGraphics := (f, 0)
          queueCompute := (f, 1)
          queueTransfer := (f, 2) } ∧
    ((f, 0) : Nat × Nat) ≠ (f, 1) ∧ ((f, 1) : Nat × Nat) ≠ (f, 2) ∧
    ((f, 0) : Nat × Nat) ≠ (f, 2) := by
  have hplan := queuePlan_sameFamily fams f hroles hf
  have hml : (fams.map QueueFamilyProperty.queueCount).length = fams.length :=
    List.length_map _ _
  have hbuild := buildQueueInfosFrom_single
    (fams.map QueueFamilyProperty.queueCount) 0 f
    (by rw [hml]; exact hf)
    (by rw [getD_map_queueCount fams f hf]; exact hcap)
  rw [hml] at hbuild
  refine ⟨?_, by simp, by simp, by simp⟩
  have hzip : zipCounts fams =
      ((List.replicate fams.length (0 : Nat)).set f 3).zip
        (fams.map QueueFamilyProperty.queueCount) := by
    rw [zipCounts, hplan]
  unfold createLogicalDevice
  rw [hzip, hbuild, hplan, hroles]
  simp

/-- Witness for C2 (amended) at the single unified family with 3
queues. -/
theorem queueAliasing_sameFamily_witness :
    createLogicalDevice [⟨7, 3⟩] =
      Except.ok
        { queueInfos := [(0, List.replicate 3 (1 : ℚ))]
          queueGraphics := (0, 0)
          queueCompute := (0, 1)
          queueTransfer := (0, 2) } :=
  (queueAliasing_sameFamily [⟨7, 3⟩] 0 (by decide) (by decide) (by decide)).1

/-! ### Theorems: C4 -/

/-- C4: every call to the clear-and-present operation performs exactly
one frame cycle in the order: acquire (signalling the present-completed
semaphore), wait on the fence of the acquired image, record its
graphics command buffer as a render pass with exactly two clear values
(color = caller RGB with alpha fixed at 1.0, depth = 1.0, stencil = 0)
and no draw commands, reset the fence, submit the single buffer to the
graphics queue waiting on present-completed at color-attachment-output
and signalling render-completed and the fence, then present waiting on
render-completed. -/
theorem clearAndPresent_cycle (idx : Nat) (r g b : ℚ) :
    deviceClear idx r g b =
      [FrameOp.acquireNextImage Sem.presentCompleted idx,
       FrameOp.waitForFence idx,
       FrameOp.beginCommandBuffer idx,
       FrameOp.beginRenderPass idx
         [ClearValue.color r g b 1, ClearValue.depthStencil 1 0],
       FrameOp.endRenderPass idx,
       FrameOp.endCommandBuffer idx,
       FrameOp.resetFence idx,
       FrameOp.submit QueueRole.graphics [idx] [Sem.presentCompleted]
         PipelineStage.colorAttachmentOutput [Sem.renderCompleted] idx,
       FrameOp.present QueueRole.graphics [Sem.renderCompleted] [idx]] ∧
    ∀ op ∈ deviceClear idx r g b, isDraw op = false := by
  refine ⟨rfl, ?_⟩
  intro op hop
  simp only [deviceClear, implClear, List.mem_cons, List.not_mem_nil,
    or_false] at hop
  rcases hop with rfl | rfl | rfl | rfl | rfl | rfl | rfl | rfl | rfl <;> rfl

/-- Witness for C4 at image index 0 with a black clear color. -/
theorem clearAndPresent_cycle_witness :
    deviceClear 0 0 0 0 =
      [FrameOp.acquireNextImage Sem.presentCompleted 0,
       FrameOp.waitForFence 0,
       FrameOp.beginCommandBuffer 0,
       FrameOp.beginRenderPass 0
         [ClearValue.color 0 0 0 1, ClearValue.depthStencil 1 0],
       FrameOp.endRenderPass 0,
       FrameOp.endCommandBuffer 0,
       FrameOp.resetFence 0,
       FrameOp.submit QueueRole.graphics [0] [Sem.presentCompleted]
         PipelineStage.colorAttachmentOutput [Sem.renderCompleted] 0,
       FrameOp.present QueueRole.graphics [Sem.renderCompleted] [0]] :=
  (clearAndPresent_cycle 0 0 0 0).1

/-! ### Theorems: C6 -/

/-- C6: after windowed construction over N swapchain images the counts
are aligned — N color image views, N framebuffers, N command buffers in
each of the three role vectors, N per-image fences, and exactly 2
semaphores. -/
theorem windowedResourceCounts (images : List Nat) :
    (createWindowedResources images).colorImageViews.length = images.length ∧
    (createWindowedResources images).framebuffers.length = images.length ∧
    (createWindowedResources images).commandBuffersGraphics.length =
      images.length ∧
    (createWindowedResources images).commandBuffersCompute.length =
      images.length ∧
    (createWindowedResources images).commandBuffersTransfer.length =
      images.length ∧
    (createWindowedResources images).presentFences.length = images.length ∧
    (createWindowedResources images).semaphores.length = 2 := by
  simp [createWindowedResources, createImageViews, createFramebuffers,
    List.length_map, List.length_replicate]

/-- Witness for C6 at N = 3 (scenario B of the spec). -/
theorem windowedResourceCounts_witness :
    (createWindowedResources [10, 11, 12]).colorImageViews.length = 3 ∧
    (createWindowedResources [10, 11, 12]).framebuffers.length = 3 ∧
    (createWindowedResources [10, 11, 12]).commandBuffersGraphics.length = 3 ∧
    (createWindowedResources [10, 11, 12]).commandBuffersCompute.length = 3 ∧
    (createWindowedResources [10, 11, 12]).commandBuffersTransfer.length = 3 ∧
    (createWindowedResources [10, 11, 12]).presentFences.length = 3 ∧
    (createWindowedResources [10, 11, 12]).semaphores.length = 2 :=
  windowedResourceCounts [10, 11, 12]

/-! ### Theorems: C9 -/

theorem getD_replicate_of_lt {α : Type} (x d : α) (n i : Nat) (h : i < n) :
    (List.replicate n x).getD i d = x := by
  induction n generalizing i with
  | zero => omega
  | succ n ih =>
    cases i with
    | zero => rfl
    | succ i => exact ih i (by omega)

/-- C9: every per-image fence is created in the signaled state
(`vk::FenceCreateFlagBits::eSignaled`), so for each valid image index
the first Wait-for-reuse fence wait performed by the clear operation
finds the fence already signaled and does not block. -/
theorem presentFences_initiallySignaled (images : List Nat) (i : Nat)
    (h : i < images.length) :
    (createWindowedResources images).presentFences.getD i false = true ∧
    fenceWaitBlocks (createWindowedResources images).presentFences i = false := by
  have hsig : (createWindowedResources images).presentFences.getD i false =
      true := by
    simp only [createWindowedResources]
    exact getD_replicate_of_lt true false _ i
      (by simpa [createImageViews] using h)
  refine ⟨hsig, ?_⟩
  simp only [fenceWaitBlocks]
  rw [hsig]
  rfl

/-- Witness for C9 on a 2-image swapchain at index 1. -/
theorem presentFences_initiallySignaled_witness :
    (createWindowedResources [5, 6]).presentFences.getD 1 false = true ∧
    fenceWaitBlocks (createWindowedResources [5, 6]).presentFences 1 = false :=
  presentFences_initiallySignaled [5, 6] 1 (by decide)

end Starlight
